import Mathlib

/-!
# TorusSQL compiler front-end: a shallow embedding

This file embeds the SQL compiler pipeline of the TorusSQL server
(`src/torussql_server/src/compiler/`): the lexer (`lexer/mod.rs`,
`lexer/token.rs`), the recursive-descent parser (`parser/mod.rs`,
`parser/ast.rs`) and the bytecode generator (`codegen/mod.rs`,
`codegen/ddl.rs`), and proves or refutes the frozen claims about them.

Modelling conventions:
* The Rust `Peekable<Chars>` cursor owned by the lexer is the list of
  characters not yet consumed (`Lexer := List Char`); `peek` looks at the
  head, `advance` drops it.
* Stateful methods become state-passing functions returning a pair of the
  Rust return value and the updated state.
* Rust `String` values flowing through tokens and AST nodes are `List Char`;
  `str::bytes` (raw UTF-8 bytes) is modelled by an explicit UTF-8 encoder,
  and `u8` values are `Nat` with `% 256` where Rust truncates (`as u8`).
* `char::is_whitespace` (the Unicode `White_Space` property) is embedded in
  full; `char::is_alphabetic` is embedded on the ASCII range (ASCII letters)
  — the non-ASCII part of the `Alphabetic` property is out of scope, and no
  claim below depends on a non-ASCII letter.
* Fallible Rust code (`Option`, `Result`) returns `Option`.
-/

namespace TorusSQL

/-- Rust `char::is_whitespace`: the Unicode `White_Space` property
(the full table, which is small and closed). -/
def isWhitespaceChar (c : Char) : Bool :=
  (Nat.ble 0x09 c.toNat && Nat.ble c.toNat 0x0D) || c.toNat == 0x20 ||
  c.toNat == 0x85 || c.toNat == 0xA0 || c.toNat == 0x1680 ||
  (Nat.ble 0x2000 c.toNat && Nat.ble c.toNat 0x200A) ||
  c.toNat == 0x2028 || c.toNat == 0x2029 || c.toNat == 0x202F ||
  c.toNat == 0x205F || c.toNat == 0x3000

/-- Rust `char::is_alphabetic`, restricted to the ASCII range
(ASCII letters `A`-`Z`, `a`-`z`); non-ASCII alphabetic characters are not
modelled and no claim depends on them. -/
def isAlphabeticChar (c : Char) : Bool :=
  (Nat.ble 0x41 c.toNat && Nat.ble c.toNat 0x5A) ||
  (Nat.ble 0x61 c.toNat && Nat.ble c.toNat 0x7A)

/-- Rust `str::to_lowercase` on a single char; exact on the ASCII letters the
lexer's alphabetic runs consist of. -/
def toLowercaseChar (c : Char) : Char :=
  if 0x41 ≤ c.toNat ∧ c.toNat ≤ 0x5A then Char.ofNat (c.toNat + 0x20) else c

/-- `lexer/token.rs`: SQL keywords enumeration (`enum Keyword`). -/
inductive Keyword where
  | Create
  | Database
  deriving DecidableEq, Repr

/-- `lexer/token.rs`: `impl TryFrom<&str> for Keyword` — lowercase the value,
then match `"create"` / `"database"`; anything else is an error (`none`). -/
def Keyword.try_from (value : List Char) : Option Keyword :=
  let lowercase_value := value.map toLowercaseChar
  if lowercase_value = "create".toList then some Keyword.Create
  else if lowercase_value = "database".toList then some Keyword.Database
  else none

/-- `lexer/token.rs`: SQL token types enumeration (`enum Token`). -/
inductive Token where
  | Keyword (k : TorusSQL.Keyword)
  | String (s : List Char)
  | Semicolon
  | End
  deriving DecidableEq, Repr

/-- The lexer's state: the characters of the input not yet consumed
(Rust `Peekable<Chars>`). -/
abbrev Lexer := List Char

/-- `lexer/mod.rs` `Lexer::skip_whitespace`: advance while the peeked
character is whitespace. -/
def Lexer.skip_whitespace : Lexer → Lexer
  | [] => []
  | c :: cs =>
    if isWhitespaceChar c then Lexer.skip_whitespace cs else c :: cs

/-- The maximal-alphabetic-run loop inside
`Lexer::consume_keyword_or_ident`: returns the collected run and the
remaining input (stops at the first non-alphabetic character, which is not
consumed by the loop). -/
def Lexer.alphaRun : Lexer → List Char × Lexer
  | [] => ([], [])
  | c :: cs =>
    if isAlphabeticChar c then
      let r := Lexer.alphaRun cs
      (c :: r.1, r.2)
    else
      ([], c :: cs)

/-- `lexer/mod.rs` `Lexer::consume_keyword_or_ident`: extract a maximal
alphabetic run; an empty run is a failure; otherwise try keyword conversion,
falling back to an identifier-valued `Token::String`. -/
def Lexer.consume_keyword_or_ident (input : Lexer) : Option Token × Lexer :=
  let r := Lexer.alphaRun input
  let value := r.1
  if value = [] then (none, r.2)
  else
    match Keyword.try_from value with
    | some keyword => (some (Token.Keyword keyword), r.2)
    | none => (some (Token.String value), r.2)

/-- The scan loop inside `Lexer::consume_string`: collect characters up to a
closing `"` (which is consumed and discarded); at end of input the loop just
stops. Returns the collected value and the remaining input. -/
def Lexer.stringRun : Lexer → List Char × Lexer
  | [] => ([], [])
  | c :: cs =>
    if c = '"' then ([], cs)
    else
      let r := Lexer.stringRun cs
      (c :: r.1, r.2)

/-- `lexer/mod.rs` `Lexer::consume_string`: skip the opening `"`, scan to a
closing `"` or end of input; a non-empty collected value yields
`Token::String`, an empty one yields `none`. -/
def Lexer.consume_string (input : Lexer) : Option Token × Lexer :=
  match input with
  | [] => (none, [])
  | _ :: rest =>
    let r := Lexer.stringRun rest
    if r.1 = [] then (none, r.2) else (some (Token.String r.1), r.2)

/-- `lexer/mod.rs` `Lexer::consume_symbol`: peek only (no advance); `;`
yields `Token::Semicolon`, anything else fails. -/
def Lexer.consume_symbol (input : Lexer) : Option Token :=
  match input with
  | [] => none
  | c :: _ => if c = ';' then some Token.Semicolon else none

/-- `lexer/mod.rs` `Lexer::next_token`: skip whitespace if the peeked char is
whitespace; classify the next char (alphabetic run / string literal /
symbol); then `self.advance()` unconditionally drops one further character;
on exhausted input return `Token::End`. -/
def Lexer.next_token (input : Lexer) : Option Token × Lexer :=
  -- Skip whitespaces.
  let input :=
    match input with
    | [] => []
    | c :: cs =>
      if isWhitespaceChar c then Lexer.skip_whitespace (c :: cs) else c :: cs
  -- Handle characters.
  match input with
  | [] => (some Token.End, [])
  | c :: cs =>
    let r :=
      if isAlphabeticChar c then Lexer.consume_keyword_or_ident (c :: cs)
      else if c = '"' then Lexer.consume_string (c :: cs)
      else (Lexer.consume_symbol (c :: cs), c :: cs)
    (r.1, r.2.tail)

/-- Iterated calls of `Lexer.next_token` on the same lexer:
`nextTokenIter input n` is the result of the `(n+1)`-th call. -/
def Lexer.nextTokenIter (input : Lexer) : Nat → Option Token × Lexer
  | 0 => Lexer.next_token input
  | n + 1 => Lexer.nextTokenIter (Lexer.next_token input).2 n

/-- `parser/ast.rs`: SQL language types enumeration (`enum LanguageType`). -/
inductive LanguageType where
  | DDL
  | DML
  | DCL
  | TCL
  | DQL
  | Vendor
  deriving DecidableEq, Repr

/-- `parser/ast.rs`: `enum Statement`, currently the single variant
`CreateDatabase { name }`. -/
inductive Statement where
  | CreateDatabase (name : List Char)
  deriving DecidableEq, Repr

/-- `parser/ast.rs` `Statement::language_type`. -/
def Statement.language_type : Statement → LanguageType
  | Statement.CreateDatabase _ => LanguageType.DDL

/-- `parser/mod.rs`: `struct Parser` — an owned lexer plus the buffered
`current_token` (one-token lookahead). -/
structure Parser where
  lexer : Lexer
  current_token : Option Token
  deriving DecidableEq, Repr

/-- `parser/mod.rs` `Parser::next_token`: refill `current_token` from the
lexer. -/
def Parser.next_token (p : Parser) : Parser :=
  { lexer := (Lexer.next_token p.lexer).2,
    current_token := (Lexer.next_token p.lexer).1 }

/-- `parser/mod.rs` `Parser::new`: construct with an empty `current_token`,
then pull the first token. -/
def Parser.new (input : Lexer) : Parser :=
  Parser.next_token { lexer := input, current_token := none }

/-- `parser/mod.rs` `Parser::parse_create_database`: pull the next token;
a `Token::String` becomes the database name, anything else fails. -/
def Parser.parse_create_database (p : Parser) : Option Statement × Parser :=
  let p := p.next_token
  match p.current_token with
  | some (Token.String name) => (some (Statement.CreateDatabase name), p)
  | _ => (none, p)

/-- `parser/mod.rs` `Parser::parse_create`: pull the next token;
`Keyword::Database` continues to `parse_create_database`, anything else
fails. -/
def Parser.parse_create (p : Parser) : Option Statement × Parser :=
  let p := p.next_token
  match p.current_token with
  | some (Token.Keyword Keyword.Database) => p.parse_create_database
  | _ => (none, p)

/-- `parser/mod.rs` `Parser::parse`: dispatch on the current token;
only `Keyword::Create` is handled, anything else fails. -/
def Parser.parse (p : Parser) : Option Statement × Parser :=
  match p.current_token with
  | some (Token.Keyword Keyword.Create) => p.parse_create
  | _ => (none, p)

/-- UTF-8 encoding of one char as byte values (what Rust `str::bytes`
yields per char). -/
def utf8EncodeCharNat (c : Char) : List Nat :=
  let n := c.toNat
  if n < 0x80 then [n]
  else if n < 0x800 then
    [0xC0 ||| (n >>> 6), 0x80 ||| (n &&& 0x3F)]
  else if n < 0x10000 then
    [0xE0 ||| (n >>> 12), 0x80 ||| ((n >>> 6) &&& 0x3F), 0x80 ||| (n &&& 0x3F)]
  else
    [0xF0 ||| (n >>> 18), 0x80 ||| ((n >>> 12) &&& 0x3F),
     0x80 ||| ((n >>> 6) &&& 0x3F), 0x80 ||| (n &&& 0x3F)]

/-- Rust `str::bytes` / `String::len` underlying byte sequence: the
concatenated UTF-8 encodings of the chars. -/
def strBytes (s : List Char) : List Nat :=
  (s.map utf8EncodeCharNat).flatten

/-- `codegen/mod.rs`: `type Bytecode = Vec<u8>`, bytes as `Nat < 256`. -/
abbrev Bytecode := List Nat

/-- `codegen/mod.rs` `language_type_to_bytecode`. -/
def language_type_to_bytecode : LanguageType → Nat
  | LanguageType.DDL => 0x01
  | LanguageType.DML => 0x02
  | LanguageType.DCL => 0x03
  | LanguageType.TCL => 0x04
  | LanguageType.DQL => 0x05
  | LanguageType.Vendor => 0x06

/-- `codegen/mod.rs` `bytecode_to_language_type`. -/
def bytecode_to_language_type : Nat → Option LanguageType
  | 0x01 => some LanguageType.DDL
  | 0x02 => some LanguageType.DML
  | 0x03 => some LanguageType.DCL
  | 0x04 => some LanguageType.TCL
  | 0x05 => some LanguageType.DQL
  | 0x06 => some LanguageType.Vendor
  | _ => none

/-- `codegen/mod.rs` `statement_to_bytecode`. -/
def statement_to_bytecode : Statement → Nat
  | Statement.CreateDatabase _ => 0x01

/-- `codegen/ddl.rs` `generate_create_database`: push `name.len() as u8`
(the UTF-8 byte length truncated to a byte), then the raw bytes of the
name. -/
def generate_create_database (bytecode : Bytecode) (name : List Char) :
    Bytecode :=
  (bytecode ++ [(strBytes name).length % 256]) ++ strBytes name

/-- `codegen/ddl.rs` `generate_bytecode` (the DDL emitter): push the
language-type header byte, the statement-kind byte, then the per-kind
operand encoding. -/
def ddlGenerateBytecode (bytecode : Bytecode) (statement : Statement) :
    Bytecode :=
  let bytecode :=
    (bytecode ++ [language_type_to_bytecode LanguageType.DDL]) ++
      [statement_to_bytecode statement]
  match statement with
  | Statement.CreateDatabase name => generate_create_database bytecode name

/-- `codegen/mod.rs`: `struct CodeGen` — an owned parser plus the owned
bytecode buffer. -/
structure CodeGen where
  parser : Parser
  bytecode : Bytecode
  deriving DecidableEq, Repr

/-- `codegen/mod.rs` `CodeGen::new`: fresh (empty) bytecode buffer. -/
def CodeGen.new (parser : Parser) : CodeGen :=
  { parser := parser, bytecode := [] }

/-- `codegen/mod.rs` `CodeGen::generate_bytecode`: drive one
`Parser::parse()`; on success dispatch on the language type (only DDL
emits; every other type returns `none`), then return a clone of the buffer;
on parse failure return `none` leaving the buffer untouched. -/
def CodeGen.generate_bytecode (cg : CodeGen) : Option Bytecode × CodeGen :=
  match cg.parser.parse with
  | (some statement, parser) =>
    match statement.language_type with
    | LanguageType.DDL =>
      let bc := ddlGenerateBytecode cg.bytecode statement
      (some bc, { parser := parser, bytecode := bc })
    | LanguageType.DML => (none, { parser := parser, bytecode := cg.bytecode })
    | LanguageType.DCL => (none, { parser := parser, bytecode := cg.bytecode })
    | LanguageType.TCL => (none, { parser := parser, bytecode := cg.bytecode })
    | LanguageType.DQL => (none, { parser := parser, bytecode := cg.bytecode })
    | LanguageType.Vendor =>
      (none, { parser := parser, bytecode := cg.bytecode })
  | (none, parser) => (none, { parser := parser, bytecode := cg.bytecode })

/-- The full pipeline as exercised by the repository's tests: lexer → parser
→ codegen on one input, returning the produced bytecode. -/
def compile (input : List Char) : Option Bytecode :=
  ((CodeGen.new (Parser.new input)).generate_bytecode).1

end TorusSQL

namespace TorusSQL

/-! ## General lemmas about the lexer -/

/-- ASCII letters are never `White_Space` characters. -/
lemma isAlpha_not_ws {c : Char} (h : isAlphabeticChar c = true) :
    isWhitespaceChar c = false := by
  simp only [isAlphabeticChar, Bool.or_eq_true, Bool.and_eq_true,
    Nat.ble_eq] at h
  rw [Bool.eq_false_iff]
  intro hws
  simp only [isWhitespaceChar, Bool.or_eq_true, Bool.and_eq_true,
    Nat.ble_eq, beq_iff_eq] at hws
  omega

/-- `skip_whitespace` leaves an input with a non-whitespace head alone. -/
lemma skip_whitespace_of_head_not_ws (c : Char) (cs : Lexer)
    (h : isWhitespaceChar c = false) :
    Lexer.skip_whitespace (c :: cs) = c :: cs := by
  simp [Lexer.skip_whitespace, h]

/-- `skip_whitespace` eats an all-whitespace input completely. -/
lemma skip_whitespace_all_ws (st : Lexer)
    (h : ∀ c ∈ st, isWhitespaceChar c) :
    Lexer.skip_whitespace st = [] := by
  induction st with
  | nil => rfl
  | cons c cs ih =>
    simp only [Lexer.skip_whitespace, h c (by simp)]
    exact ih fun x hx => h x (by simp [hx])

/-- `skip_whitespace` drops an all-whitespace run in front of a
non-whitespace character. -/
lemma skip_whitespace_append (pre : List Char) (c : Char) (l : Lexer)
    (hpre : ∀ x ∈ pre, isWhitespaceChar x) (hc : isWhitespaceChar c = false) :
    Lexer.skip_whitespace (pre ++ c :: l) = c :: l := by
  induction pre with
  | nil => simpa using skip_whitespace_of_head_not_ws c l hc
  | cons p ps ih =>
    simp only [List.cons_append, Lexer.skip_whitespace, hpre p (by simp)]
    exact ih fun x hx => hpre x (by simp [hx])

/-- `next_token` rewritten with the whitespace-skipping prefix factored into
one `skip_whitespace` application. -/
lemma next_token_eq_skip (st : Lexer) :
    Lexer.next_token st =
      match Lexer.skip_whitespace st with
      | [] => (some Token.End, [])
      | c :: cs =>
        ((if isAlphabeticChar c then Lexer.consume_keyword_or_ident (c :: cs)
          else if c = '"' then Lexer.consume_string (c :: cs)
          else (Lexer.consume_symbol (c :: cs), c :: cs)).1,
         (if isAlphabeticChar c then Lexer.consume_keyword_or_ident (c :: cs)
          else if c = '"' then Lexer.consume_string (c :: cs)
          else (Lexer.consume_symbol (c :: cs), c :: cs)).2.tail) := by
  cases st with
  | nil => rfl
  | cons c cs =>
    by_cases h : isWhitespaceChar c
    · simp only [Lexer.next_token, h, if_true]
      rfl
    · rw [skip_whitespace_of_head_not_ws c cs (by simpa using h)]
      simp only [Lexer.next_token, h, Bool.false_eq_true, if_false]

/-- `next_token` on an input that whitespace-skips to empty. -/
lemma next_token_of_skip_nil (st : Lexer)
    (h : Lexer.skip_whitespace st = []) :
    Lexer.next_token st = (some Token.End, []) := by
  rw [next_token_eq_skip, h]

/-- `next_token` on an input that whitespace-skips to a non-empty list:
classification followed by the unconditional extra advance. -/
lemma next_token_of_skip_cons (st : Lexer) (c : Char) (cs : List Char)
    (h : Lexer.skip_whitespace st = c :: cs) :
    Lexer.next_token st =
      ((if isAlphabeticChar c then Lexer.consume_keyword_or_ident (c :: cs)
        else if c = '"' then Lexer.consume_string (c :: cs)
        else (Lexer.consume_symbol (c :: cs), c :: cs)).1,
       (if isAlphabeticChar c then Lexer.consume_keyword_or_ident (c :: cs)
        else if c = '"' then Lexer.consume_string (c :: cs)
        else (Lexer.consume_symbol (c :: cs), c :: cs)).2.tail) := by
  rw [next_token_eq_skip, h]

/-- `consume_keyword_or_ident` never produces the `End` sentinel. -/
lemma consume_keyword_or_ident_ne_end (l : Lexer) :
    (Lexer.consume_keyword_or_ident l).1 ≠ some Token.End := by
  simp only [Lexer.consume_keyword_or_ident]
  split
  · simp
  · split <;> simp

/-- `consume_string` never produces the `End` sentinel. -/
lemma consume_string_ne_end (l : Lexer) :
    (Lexer.consume_string l).1 ≠ some Token.End := by
  cases l with
  | nil => simp [Lexer.consume_string]
  | cons c cs =>
    simp only [Lexer.consume_string]
    split <;> simp

/-- `consume_symbol` never produces the `End` sentinel. -/
lemma consume_symbol_ne_end (l : Lexer) :
    Lexer.consume_symbol l ≠ some Token.End := by
  cases l with
  | nil => simp [Lexer.consume_symbol]
  | cons c cs =>
    simp only [Lexer.consume_symbol]
    split <;> simp

/-- When `next_token` returns the `End` sentinel, the whole input has been
consumed: the resulting lexer state is empty. -/
lemma next_token_end_state (st : Lexer)
    (h : (Lexer.next_token st).1 = some Token.End) :
    (Lexer.next_token st).2 = [] := by
  cases hs : Lexer.skip_whitespace st with
  | nil => rw [next_token_of_skip_nil st hs]
  | cons c cs =>
    rw [next_token_of_skip_cons st c cs hs] at h
    exfalso
    by_cases ha : isAlphabeticChar c
    · rw [if_pos ha] at h
      exact consume_keyword_or_ident_ne_end (c :: cs) h
    · rw [if_neg ha] at h
      by_cases hq : c = '"'
      · rw [if_pos hq] at h
        exact consume_string_ne_end (c :: cs) h
      · rw [if_neg hq] at h
        exact consume_symbol_ne_end (c :: cs) h

/-- On the empty lexer state every iterated call yields the `End`
sentinel and an empty state. -/
lemma nextTokenIter_nil (n : Nat) :
    Lexer.nextTokenIter [] n = (some Token.End, []) := by
  induction n with
  | zero => rfl
  | succ n ih => simpa [Lexer.nextTokenIter] using ih

/-- The scan loop of `consume_string` consumes everything when no closing
quote exists. -/
lemma stringRun_no_quote (rest : List Char) (h : '"' ∉ rest) :
    Lexer.stringRun rest = (rest, []) := by
  induction rest with
  | nil => rfl
  | cons c cs ih =>
    have hc : ¬ c = '"' := fun e => h (by simp [e])
    simp only [Lexer.stringRun, if_neg hc]
    simp [ih fun hm => h (by simp [hm])]

/-- The scan loop of `consume_string` stops exactly at the first closing
quote, consuming it. -/
lemma stringRun_append (content : List Char) (l : Lexer)
    (h : '"' ∉ content) :
    Lexer.stringRun (content ++ '"' :: l) = (content, l) := by
  induction content with
  | nil => simp [Lexer.stringRun]
  | cons c cs ih =>
    have hc : ¬ c = '"' := fun e => h (by simp [e])
    simp only [List.cons_append, Lexer.stringRun, if_neg hc]
    simp [ih fun hm => h (by simp [hm])]

/-- The maximal-alphabetic-run loop collects exactly a leading all-alphabetic
run, stopping at (and not consuming) the first non-alphabetic character. -/
lemma alphaRun_append (run : List Char) (d : Char) (rest : Lexer)
    (hall : ∀ c ∈ run, isAlphabeticChar c)
    (hd : isAlphabeticChar d = false) :
    Lexer.alphaRun (run ++ d :: rest) = (run, d :: rest) := by
  induction run with
  | nil => simp [Lexer.alphaRun, hd]
  | cons c cs ih =>
    simp only [List.cons_append, Lexer.alphaRun, hall c (by simp), if_true]
    simp [ih fun x hx => hall x (by simp [hx])]

/-- The lexer state left by `consume_keyword_or_ident` is the one left by
its alphabetic-run loop, in every branch. -/
lemma consume_keyword_or_ident_state (l : Lexer) :
    (Lexer.consume_keyword_or_ident l).2 = (Lexer.alphaRun l).2 := by
  simp only [Lexer.consume_keyword_or_ident]
  split
  · rfl
  · split <;> rfl

/-! ## The claims -/

/-- **C1.**On input `CREATE DATABASE "MyDB";` the full pipeline
`generate_bytecode()` yields exactly `[0x01, 0x01, 4, 'M', 'y', 'D', 'B']`
(as byte values), and on input `SELECT * FROM t;` it yields `none`. -/
theorem c1_pipeline_concrete :
    compile "CREATE DATABASE \"MyDB\";".toList =
      some [0x01, 0x01, 4, 0x4D, 0x79, 0x44, 0x42] ∧
    compile "SELECT * FROM t;".toList = none := by
  constructor <;> decide

/-- **C4.** The six-variant language-type tables form an exact round-trip:
`bytecode_to_language_type (language_type_to_bytecode t) = some t` for every
variant, and the forward table maps `DDL=0x01, DML=0x02, DCL=0x03, TCL=0x04,
DQL=0x05, Vendor=0x06`. -/
theorem c4_language_type_roundtrip :
    (∀ t : LanguageType,
      bytecode_to_language_type (language_type_to_bytecode t) = some t) ∧
    language_type_to_bytecode LanguageType.DDL = 0x01 ∧
    language_type_to_bytecode LanguageType.DML = 0x02 ∧
    language_type_to_bytecode LanguageType.DCL = 0x03 ∧
    language_type_to_bytecode LanguageType.TCL = 0x04 ∧
    language_type_to_bytecode LanguageType.DQL = 0x05 ∧
    language_type_to_bytecode LanguageType.Vendor = 0x06 := by
  refine ⟨fun t => ?_, rfl, rfl, rfl, rfl, rfl, rfl⟩
  cases t <;> rfl

/-- **C7.** Tokenizing the exact input `   CREATE   DATABASE  "MyDB"  ;  `
via successive `next_token()` calls yields, in order, `Keyword(Create)`,
`Keyword(Database)`, `String("MyDB")`, `Semicolon`, `End`, and `End` again
on a further call; keyword matching is case-insensitive (`CreAtE` and
`CREATE` both yield `Keyword(Create)`) and interior whitespace of string
literals is preserved verbatim. -/
theorem c7_tokenize_concrete :
    (Lexer.nextTokenIter "   CREATE   DATABASE  \"MyDB\"  ;  ".toList 0).1 =
      some (Token.Keyword Keyword.Create) ∧
    (Lexer.nextTokenIter "   CREATE   DATABASE  \"MyDB\"  ;  ".toList 1).1 =
      some (Token.Keyword Keyword.Database) ∧
    (Lexer.nextTokenIter "   CREATE   DATABASE  \"MyDB\"  ;  ".toList 2).1 =
      some (Token.String "MyDB".toList) ∧
    (Lexer.nextTokenIter "   CREATE   DATABASE  \"MyDB\"  ;  ".toList 3).1 =
      some Token.Semicolon ∧
    (Lexer.nextTokenIter "   CREATE   DATABASE  \"MyDB\"  ;  ".toList 4).1 =
      some Token.End ∧
    (Lexer.nextTokenIter "   CREATE   DATABASE  \"MyDB\"  ;  ".toList 5).1 =
      some Token.End ∧
    (Lexer.next_token "CreAtE".toList).1 =
      some (Token.Keyword Keyword.Create) ∧
    (Lexer.next_token "CREATE".toList).1 =
      some (Token.Keyword Keyword.Create) ∧
    (Lexer.next_token "\"  MyDB  \"".toList).1 =
      some (Token.String "  MyDB  ".toList) := by
  decide

/-- **C8.** The `End` sentinel is repeatable: whenever a `next_token()` call
returns `Some(Token::End)`, the input is exhausted and every subsequent call
(any number of further iterations) again returns `Some(Token::End)`;
moreover an empty or whitespace-only input yields `End` on the very first
call. -/
theorem c8_end_sentinel_idempotent (st : Lexer) :
    ((Lexer.next_token st).1 = some Token.End →
      ∀ n, Lexer.nextTokenIter st n = (some Token.End, [])) ∧
    ((∀ c ∈ st, isWhitespaceChar c) →
      Lexer.next_token st = (some Token.End, [])) := by
  constructor
  · intro h n
    have hst : (Lexer.next_token st).2 = [] := next_token_end_state st h
    cases n with
    | zero =>
      show Lexer.next_token st = _
      rw [Prod.ext_iff]
      exact ⟨h, hst⟩
    | succ n =>
      show Lexer.nextTokenIter (Lexer.next_token st).2 n = _
      rw [hst]
      exact nextTokenIter_nil n
  · intro h
    exact next_token_of_skip_nil st (skip_whitespace_all_ws st h)

/-- **C8 witness.** Concrete instances: on the whitespace-only input `"  "`
the fourth call still yields `End` with an empty state, and a single call on
`" "` yields `End` directly. -/
theorem c8_end_sentinel_idempotent_witness :
    Lexer.nextTokenIter "  ".toList 3 = (some Token.End, []) ∧
    Lexer.next_token " ".toList = (some Token.End, []) :=
  ⟨(c8_end_sentinel_idempotent "  ".toList).1 (by decide) 3,
   (c8_end_sentinel_idempotent " ".toList).2 (by decide)⟩

/-- **C3 counterexample.** The claim says an unterminated string literal
yields no token "regardless of how many characters were scanned after the
opening quote". On the input `"abc` (opening quote, three scanned
characters, no closing quote before end of input) the `next_token()` call
that consumes it returns `Some(String("abc"))`, not `None`. -/
theorem c3_counterexample :
    Lexer.next_token "\"abc".toList =
      (some (Token.String "abc".toList), []) := by
  decide

/-- **C3 amended.** For an unterminated string literal the lexer returns
`None` exactly when zero content characters were scanned after the opening
quote; when at least one character was scanned before end of input, the
scan loop falls off the end of input and `next_token()` returns
`Some(String(content))` as if the literal were terminated. -/
theorem c3_unterminated_string_amended (rest : List Char)
    (h : '"' ∉ rest) :
    Lexer.next_token ('"' :: rest) =
      ((if rest = [] then none else some (Token.String rest)), []) := by
  have hskip : Lexer.skip_whitespace ('"' :: rest) = '"' :: rest :=
    skip_whitespace_of_head_not_ws '"' rest (by decide)
  rw [next_token_of_skip_cons _ '"' rest hskip]
  rw [if_neg (by decide : ¬ isAlphabeticChar '"' = true),
    if_pos (rfl : ('"' : Char) = '"')]
  simp only [Lexer.consume_string, stringRun_no_quote rest h]
  by_cases hr : rest = []
  · simp [hr]
  · simp [hr]

/-- **C3 amended witness.** Concrete instance: the unterminated literal
`"abc` — three scanned characters — produces `Some(String("abc"))` and
consumes the whole input. -/
theorem c3_unterminated_string_amended_witness :
    Lexer.next_token ('"' :: ['a', 'b', 'c']) =
      ((if ['a', 'b', 'c'] = ([] : List Char) then none
        else some (Token.String ['a', 'b', 'c'])), []) :=
  c3_unterminated_string_amended ['a', 'b', 'c'] (by decide)

/-- **C9 counterexample.** The claim says every token kind (including
`Semicolon`) is followed by an unconditional consumption of one character
beyond the token's own characters, so a directly adjacent non-whitespace
character is always swallowed. On input `;;` the first call returns
`Semicolon` leaving `;` in the input, and the second call returns that very
`Semicolon` token — nothing beyond the token's own character was consumed,
and the adjacent character is not lost. -/
theorem c9_counterexample :
    Lexer.nextTokenIter ";;".toList 0 = (some Token.Semicolon, [';']) ∧
    (Lexer.nextTokenIter ";;".toList 1).1 = some Token.Semicolon := by
  decide

/-- **C9 amended.** The unconditional `advance()` after classification
swallows one character beyond the token's own characters for
keyword/identifier tokens and for string-literal tokens (so e.g. in
`CREATE;` and `"MyDB";` the adjacent `;` is lost); for a `Semicolon` token,
however, `consume_symbol` does not advance, so the extra advance consumes
the `;` itself and no character beyond the token is swallowed. -/
theorem c9_extra_advance_amended :
    (∀ run d rest, run ≠ [] → (∀ c ∈ run, isAlphabeticChar c) →
      isAlphabeticChar d = false →
      (Lexer.next_token (run ++ d :: rest)).2 = rest) ∧
    (∀ content d rest, content ≠ [] → '"' ∉ content →
      (Lexer.next_token ('"' :: content ++ '"' :: d :: rest)).2 = rest) ∧
    (∀ rest : List Char, (Lexer.next_token (';' :: rest)).2 = rest) := by
  refine ⟨fun run d rest hne hall hd => ?_, fun content d rest hne hq => ?_,
    fun rest => ?_⟩
  · obtain ⟨c, cs, rfl⟩ : ∃ c cs, run = c :: cs := by
      cases run with
      | nil => exact absurd rfl hne
      | cons c cs => exact ⟨c, cs, rfl⟩
    have hca : isAlphabeticChar c = true := hall c (by simp)
    have hskip :
        Lexer.skip_whitespace ((c :: cs) ++ d :: rest) =
          c :: (cs ++ d :: rest) := by
      simpa using
        skip_whitespace_of_head_not_ws c (cs ++ d :: rest) (isAlpha_not_ws hca)
    rw [next_token_of_skip_cons _ c (cs ++ d :: rest) hskip, if_pos hca]
    rw [consume_keyword_or_ident_state]
    have hrun : Lexer.alphaRun (c :: (cs ++ d :: rest)) = (c :: cs, d :: rest) := by
      simpa using alphaRun_append (c :: cs) d rest hall hd
    rw [hrun]
    rfl
  · have hskip :
        Lexer.skip_whitespace (('"' :: content) ++ '"' :: d :: rest) =
          '"' :: (content ++ '"' :: d :: rest) :=
      skip_whitespace_of_head_not_ws '"' (content ++ '"' :: d :: rest)
        (by decide)
    rw [next_token_of_skip_cons _ '"' (content ++ '"' :: d :: rest) hskip]
    rw [if_neg (by decide : ¬ isAlphabeticChar '"' = true),
      if_pos (rfl : ('"' : Char) = '"')]
    simp only [Lexer.consume_string, stringRun_append content (d :: rest) hq]
    simp [hne]
  · have hskip : Lexer.skip_whitespace (';' :: rest) = ';' :: rest :=
      skip_whitespace_of_head_not_ws ';' rest (by decide)
    rw [next_token_of_skip_cons _ ';' rest hskip]
    rw [if_neg (by decide : ¬ isAlphabeticChar ';' = true),
      if_neg (by decide : ¬ (';' : Char) = '"')]
    rfl

/-- **C9 amended witness.** Concrete instances: in `CREATE;` and `"MyDB";`
the adjacent `;` is swallowed (nothing remains in the lexer state), while
after lexing the first `;` of `;;` the second `;` remains. -/
theorem c9_extra_advance_amended_witness :
    (Lexer.next_token ("CREATE".toList ++ ';' :: [])).2 = [] ∧
    (Lexer.next_token ('"' :: "MyDB".toList ++ '"' :: ';' :: [])).2 = [] ∧
    (Lexer.next_token (';' :: [';'])).2 = [';'] :=
  ⟨c9_extra_advance_amended.1 "CREATE".toList ';' [] (by decide) (by decide)
      (by decide),
   c9_extra_advance_amended.2.1 "MyDB".toList ';' [] (by decide) (by decide),
   c9_extra_advance_amended.2.2 [';']⟩

/-- **C10.** A properly terminated but empty string literal `""` (optionally
preceded by whitespace) makes `next_token()` return `None` — the
homogeneous lexing-failure signal — rather than `String("")`; consequently
the statement `CREATE DATABASE "";` never compiles to bytecode. -/
theorem c10_empty_string_literal :
    (∀ pre rest, (∀ c ∈ pre, isWhitespaceChar c) →
      Lexer.next_token (pre ++ '"' :: '"' :: rest) = (none, rest.tail)) ∧
    compile "CREATE DATABASE \"\";".toList = none := by
  constructor
  · intro pre rest hpre
    have hskip :
        Lexer.skip_whitespace (pre ++ '"' :: '"' :: rest) =
          '"' :: '"' :: rest :=
      skip_whitespace_append pre '"' ('"' :: rest) hpre (by decide)
    rw [next_token_of_skip_cons _ '"' ('"' :: rest) hskip]
    rw [if_neg (by decide : ¬ isAlphabeticChar '"' = true),
      if_pos (rfl : ('"' : Char) = '"')]
    simp [Lexer.consume_string, Lexer.stringRun]
  · decide

/-- **C10 witness.** Concrete instance: after two spaces, the empty literal
of `  "";` yields `None` (consuming through the `;`), and
`CREATE DATABASE "";` compiles to `None`. -/
theorem c10_empty_string_literal_witness :
    Lexer.next_token ([' ', ' '] ++ '"' :: '"' :: [';']) =
      (none, List.tail [';']) ∧
    compile "CREATE DATABASE \"\";".toList = none :=
  ⟨c10_empty_string_literal.1 [' ', ' '] [';'] (by decide),
   c10_empty_string_literal.2⟩

/-- **C5.** `Parser::parse()` returns `Some(Statement::CreateDatabase)`
exactly when the first three tokens delivered by the lexer are
`Keyword(Create)`, `Keyword(Database)`, `String(name)` (whose text becomes
the `name` field); any deviation yields `None` (and, by the return type, no
partially built statement exists); on success the parser's final state is
exactly the state after those three lexer pulls — the grammar path neither
requires nor consumes a trailing semicolon token. -/
theorem c5_parse_characterization (input : Lexer) (name : List Char) :
    (((Parser.new input).parse).1 = some (Statement.CreateDatabase name) ↔
      ((Lexer.next_token input).1 = some (Token.Keyword Keyword.Create) ∧
       (Lexer.next_token (Lexer.next_token input).2).1 =
         some (Token.Keyword Keyword.Database) ∧
       (Lexer.next_token (Lexer.next_token (Lexer.next_token input).2).2).1 =
         some (Token.String name))) ∧
    (((Parser.new input).parse).1 = some (Statement.CreateDatabase name) →
      ((Parser.new input).parse).2 =
        { lexer :=
            (Lexer.next_token (Lexer.next_token (Lexer.next_token input).2).2).2,
          current_token :=
            (Lexer.next_token (Lexer.next_token (Lexer.next_token input).2).2).1 }) := by
  rcases h1 : Lexer.next_token input with ⟨t1, l1⟩
  have hnew : Parser.new input = ⟨l1, t1⟩ := by
    simp [Parser.new, Parser.next_token, h1]
  rcases h2 : Lexer.next_token l1 with ⟨t2, l2⟩
  rcases h3 : Lexer.next_token l2 with ⟨t3, l3⟩
  simp only [hnew, h1, h2, h3]
  cases t1 with
  | none => simp [Parser.parse]
  | some tok1 =>
    cases tok1 with
    | Keyword k1 =>
      cases k1 with
      | Create =>
        simp only [Parser.parse, Parser.parse_create, Parser.next_token, h2]
        cases t2 with
        | none => simp
        | some tok2 =>
          cases tok2 with
          | Keyword k2 =>
            cases k2 with
            | Create => simp
            | Database =>
              simp only [Parser.parse_create_database, Parser.next_token, h3]
              cases t3 with
              | none => simp
              | some tok3 =>
                cases tok3 with
                | Keyword k3 => simp
                | String s => simp
                | Semicolon => simp
                | End => simp
          | String s => simp
          | Semicolon => simp
          | End => simp
      | Database => simp [Parser.parse]
    | String s => simp [Parser.parse]
    | Semicolon => simp [Parser.parse]
    | End => simp [Parser.parse]

/-- **C5 witness.** Concrete instance: on `CREATE DATABASE "MyDB";` the
three delivered tokens are as required and `parse()` builds the
statement. -/
theorem c5_parse_characterization_witness :
    ((Parser.new "CREATE DATABASE \"MyDB\";".toList).parse).1 =
      some (Statement.CreateDatabase "MyDB".toList) :=
  (c5_parse_characterization "CREATE DATABASE \"MyDB\";".toList
      "MyDB".toList).1.mpr ⟨by decide, by decide, by decide⟩

/-- **C6.** Whenever the inner `Parser::parse()` yields `None`,
`CodeGen::generate_bytecode()` returns `None` and the bytecode buffer it
owns is left completely unchanged (no header byte or other partial emission
is appended on the failure path). -/
theorem c6_no_partial_emission (cg : CodeGen)
    (h : (cg.parser.parse).1 = none) :
    (cg.generate_bytecode).1 = none ∧
    (cg.generate_bytecode).2.bytecode = cg.bytecode := by
  rcases hp : cg.parser.parse with ⟨t, p⟩
  rw [hp] at h
  cases t with
  | some s => simp at h
  | none => simp [CodeGen.generate_bytecode, hp]

/-- **C6 witness.** Concrete instance: on `SELECT * FROM t;` parsing fails,
codegen returns `None`, and the (empty) buffer is unchanged. -/
theorem c6_no_partial_emission_witness :
    ((CodeGen.new (Parser.new "SELECT * FROM t;".toList)).generate_bytecode).1 =
      none ∧
    ((CodeGen.new (Parser.new "SELECT * FROM t;".toList)).generate_bytecode).2.bytecode =
      (CodeGen.new (Parser.new "SELECT * FROM t;".toList)).bytecode :=
  c6_no_partial_emission (CodeGen.new (Parser.new "SELECT * FROM t;".toList))
    (by decide)

/-- The `CREATE DATABASE` input whose quoted name is 256 copies of `a` —
accepted by the parser, but its byte length does not fit in the one-byte
length prefix. -/
def longNameInput : List Char :=
  "CREATE DATABASE \"".toList ++ List.replicate 256 'a' ++ "\";".toList

set_option maxRecDepth 4000 in
/-- **C2 counterexample.** The claim quantifies over *all* names accepted by
the parser, but `name.len() as u8` truncates: for a 256-byte name the
pipeline succeeds and emits length prefix `0` at offset 2 while 256 operand
bytes follow — the prefix does not equal the operand count. -/
theorem c2_counterexample :
    compile longNameInput =
      some ([0x01, 0x01, 0] ++ List.replicate 256 0x61) ∧
    (([0x01, 0x01, 0] ++ List.replicate 256 0x61) : List Nat)[2]? = some 0 ∧
    (([0x01, 0x01, 0] ++ List.replicate 256 0x61) : List Nat).length - 3 =
      256 := by
  refine ⟨by decide, by decide, by decide⟩

/-- **C2 amended.** For every successfully compiled `CreateDatabase`
statement whose name's UTF-8 byte length fits in one byte (at most 255),
the produced bytecode is `[0x01, 0x01, len] ++ bytes` where `len` is
exactly the number of operand bytes following offset 2 and `bytes` are the
raw UTF-8 bytes of the name; in general the emitted prefix is
`len % 256`. -/
theorem c2_length_prefix_amended (input : Lexer) (name : List Char)
    (hp : ((Parser.new input).parse).1 = some (Statement.CreateDatabase name))
    (hlen : (strBytes name).length ≤ 255) :
    compile input =
      some ([0x01, 0x01, (strBytes name).length] ++ strBytes name) := by
  rcases hps : (Parser.new input).parse with ⟨t, q⟩
  rw [hps] at hp
  simp only at hp
  subst hp
  simp only [compile, CodeGen.generate_bytecode, CodeGen.new, hps,
    Statement.language_type]
  simp [ddlGenerateBytecode, generate_create_database, statement_to_bytecode,
    language_type_to_bytecode,
    Nat.mod_eq_of_lt (by omega : (strBytes name).length < 256)]

/-- **C2 amended witness.** Concrete instance: `MyDB` has 4 UTF-8 bytes and
the pipeline emits `[0x01, 0x01, 4]` followed by those 4 bytes. -/
theorem c2_length_prefix_amended_witness :
    compile "CREATE DATABASE \"MyDB\";".toList =
      some ([0x01, 0x01, (strBytes "MyDB".toList).length] ++
        strBytes "MyDB".toList) :=
  c2_length_prefix_amended "CREATE DATABASE \"MyDB\";".toList "MyDB".toList
    (by decide) (by decide)

end TorusSQL
